/-
Verification of the Albion Rush departure server (src/server.js).

This file shallowly embeds the departure-derivation engine and the feed
cache of `src/server.js` and proves the specification's claims about them.

Embedding conventions:
* JS strings are Lean `String`s (all inputs of interest are ASCII, so
  `toUpperCase`/`length`/`slice` agree with Lean's `String.toUpper`,
  `String.length`, `drop`/`take`).
* Optional / possibly-`undefined` JS fields are `Option` fields; JS
  falsiness of a string field (undefined or `""`) is modelled explicitly
  where the code relies on it.
* Epoch times are `Int` seconds; a `dep.time` whose numeric conversion
  yields NaN / a non-finite number is modelled as `none`.
* The single-threaded event loop is modelled by atomic cache steps: the
  synchronous prefix of `fetchGTFSRT` is one step, and a fetch completion
  handler (`then`/`catch`) is another.
-/
import Mathlib

namespace AlbionRush

/-! ## Data model (GTFS-RT feed snapshot, as consumed by server.js) -/

/-- `stu.stopTimeProperties`: optional realtime platform reassignment. -/
structure StopTimeProperties where
  assignedStopId : Option String
deriving Repr, DecidableEq

/-- A `departure` or `arrival` event on a stop time update.  `time` is the
result of the JS numeric conversion `typeof dep.time === 'object' ?
dep.time.toNumber() : Number(dep.time)`; `none` models a NaN / non-finite
conversion result. -/
structure TimeEvent where
  time : Option Int
deriving Repr, DecidableEq

/-- One stop-time-update record of a trip update. -/
structure StopTimeUpdate where
  stopId : String
  stopTimeProperties : Option StopTimeProperties
  departure : Option TimeEvent
  arrival : Option TimeEvent
deriving Repr, DecidableEq

/-- `tu.trip`: trip descriptor. -/
structure TripDescriptor where
  tripId : Option String
  routeId : Option String
  directionId : Option Int
deriving Repr, DecidableEq

/-- `entity.tripUpdate`: one trip update.  `stopTimeUpdate` is `none` when
the field is absent (the code treats absent and empty alike via
`!tu.stopTimeUpdate?.length`). -/
structure TripUpdate where
  trip : Option TripDescriptor
  stopTimeUpdate : Option (List StopTimeUpdate)
deriving Repr, DecidableEq

/-- One feed entity. -/
structure Entity where
  tripUpdate : Option TripUpdate
deriving Repr, DecidableEq

/-- A decoded feed snapshot (FeedMessage). -/
structure Feed where
  entity : List Entity
deriving Repr, DecidableEq

/-! ## Mode configuration (`MODES` in server.js) -/

structure ModeConfig where
  stopIds : List String
  directionId : Option Int
  requiredStopIds : Option (List String)
  useDestination : Bool
deriving Repr, DecidableEq

/-- The `MODES` table of server.js. -/
def MODES : String → Option ModeConfig
  | "albion" => some
      { stopIds := ["600365", "600366", "600368"]
        directionId := some 0
        requiredStopIds := none
        useDestination := false }
  | "roma-milton" => some
      { stopIds := ["600029"]
        directionId := none
        requiredStopIds := some ["600279", "600280"]
        useDestination := true }
  | _ => none

/-- The `PLATFORM_NAMES` table of server.js. -/
def PLATFORM_NAMES : String → Option String
  | "600028" => some "7"
  | "600029" => some "8"
  | "600030" => some "6"
  | "600033" => some "3"
  | "600034" => some "5"
  | "600035" => some "10"
  | "600036" => some "4"
  | "600038" => some "9"
  | "600365" => some "1"
  | "600366" => some "2"
  | "600368" => some "3"
  | _ => none

/-- The `LINE_NAMES` table of server.js. -/
def LINE_NAMES : String → Option String
  | "AI" => some "Airport"
  | "BD" => some "Gold Coast"
  | "CA" => some "Caboolture"
  | "CL" => some "Cleveland"
  | "DB" => some "Doomben"
  | "FG" => some "Ferny Grove"
  | "GC" => some "Gold Coast"
  | "GY" => some "Gympie"
  | "IP" => some "Ipswich"
  | "NA" => some "Nambour"
  | "RP" => some "Redcliffe"
  | "RW" => some "Rosewood"
  | "SH" => some "Shorncliffe"
  | "SM" => some "Stradbroke"
  | "SP" => some "Springfield"
  | "VL" => some "Gold Coast"
  | _ => none

/-! ## Line-name resolution (`lineName` in server.js) -/

/-- `routeId.toUpperCase().split('-')[0]`: upper-case, then the portion
before the first hyphen (the whole string when no hyphen occurs). -/
def routeCode (routeId : String) : String :=
  String.mk ((routeId.toList.map Char.toUpper).takeWhile (fun c => c ≠ '-'))

/-- `code.slice(a, b)` on an ASCII string. -/
def jsSlice (s : String) (a b : Nat) : String :=
  String.mk ((s.toList.drop a).take (b - a))

/-- `lineName(routeId, useDestination)` from server.js lines 108-116. -/
def lineName (routeId : String) (useDestination : Bool) : String :=
  if routeId = "" then "Train"
  else
    let code := routeCode routeId
    if useDestination ∧ code.length ≥ 4 then
      match LINE_NAMES (jsSlice code 2 4) with
      | some dest => dest
      | none => (LINE_NAMES (jsSlice code 0 2)).getD routeId
    else (LINE_NAMES (jsSlice code 0 2)).getD routeId

/-! ## Departure resolver (`getDepartures` in server.js, lines 172-249) -/

/-- A departure projection (`result` object built at lines 232-241). -/
structure Departure where
  line : String
  minutes : Int
  departureTs : Int
  platform : Option String
deriving Repr, DecidableEq

/-- `stu.stopTimeProperties?.assignedStopId || stu.stopId` (line 204):
the realtime reassignment wins unless it is absent or `""` (JS-falsy). -/
def effectiveStopId (stu : StopTimeUpdate) : String :=
  match stu.stopTimeProperties with
  | some props =>
    match props.assignedStopId with
    | some a => if a = "" then stu.stopId else a
    | none => stu.stopId
  | none => stu.stopId

/-- Line 205: `config.stopIds.includes(stu.stopId) ||
config.stopIds.includes(effectiveStopId)`. -/
def entryMatches (config : ModeConfig) (stu : StopTimeUpdate) : Bool :=
  config.stopIds.contains stu.stopId || config.stopIds.contains (effectiveStopId stu)

/-- The scan of lines 199-211: first stop-time-update whose raw or
effective stop ID is configured, together with its effective stop ID and
its index (`i` starts at the given offset). -/
def findTarget (config : ModeConfig) : List StopTimeUpdate → Nat →
    Option (StopTimeUpdate × String × Nat)
  | [], _ => none
  | stu :: rest, i =>
    if entryMatches config stu then some (stu, effectiveStopId stu, i)
    else findTarget config rest (i + 1)

/-- Lines 218-220: `tu.stopTimeUpdate.slice(targetIdx + 1).some(s =>
config.requiredStopIds.includes(s.stopId))` — note the raw `stopId`. -/
def hasDownstream (req : List String) (stus : List StopTimeUpdate) (targetIdx : Nat) : Bool :=
  (stus.drop (targetIdx + 1)).any (fun s => req.contains s.stopId)

/-- Lines 189-193: skip when the mode has a `directionId`, the trip has
one too, and they differ. -/
def dirMismatch (config : ModeConfig) (tu : TripUpdate) : Bool :=
  match config.directionId, tu.trip.bind TripDescriptor.directionId with
  | some cd, some td => td ≠ cd
  | _, _ => false

/-- Lines 217-222 as a skip-condition: the mode requires a downstream stop
and none is found after the matched index. -/
def requiredFails (config : ModeConfig) (stus : List StopTimeUpdate) (targetIdx : Nat) : Bool :=
  match config.requiredStopIds with
  | some req => !hasDownstream req stus targetIdx
  | none => false

/-- Line 225: `targetUpdate.departure || targetUpdate.arrival`. -/
def depEvent (stu : StopTimeUpdate) : Option TimeEvent :=
  match stu.departure with
  | some d => some d
  | none => stu.arrival

/-- `Math.round((depTimeSec - now) / 60)` for integer `d = depTimeSec - now`:
`Math.round x = ⌊x + 1/2⌋`, and `⌊d/60 + 1/2⌋ = ⌊(2d+60)/120⌋`. -/
def jsRoundDiv60 (d : Int) : Int :=
  Int.fdiv (2 * d + 60) 120

/-- `tu.trip?.tripId` (line 185). -/
def tripIdOf (tu : TripUpdate) : Option String :=
  tu.trip.bind TripDescriptor.tripId

/-- JS truthiness of the tripId: `undefined` and `""` are falsy. -/
def truthyId : Option String → Option String
  | some s => if s = "" then none else some s
  | none => none

/-- Line 186: `if (tripId && seenTripIds.has(tripId)) continue`. -/
def isDup (seen : List String) (tid : Option String) : Bool :=
  match truthyId tid with
  | some s => seen.contains s
  | none => false

/-- Line 244: `if (tripId) seenTripIds.add(tripId)`. -/
def markSeen (tid : Option String) (seen : List String) : List String :=
  match truthyId tid with
  | some s => s :: seen
  | none => seen

/-- The per-trip pipeline of `getDepartures` (lines 189-241): direction
filter, stop match, downstream requirement, time extraction and
projection.  `none` means the trip is skipped. -/
def evalTrip (config : ModeConfig) (now : Int) (tu : TripUpdate) : Option Departure :=
  let stus := tu.stopTimeUpdate.getD []
  if dirMismatch config tu then none
  else
    match findTarget config stus 0 with
    | none => none
    | some (target, targetStopId, targetIdx) =>
      if requiredFails config stus targetIdx then none
      else
        match depEvent target with
        | none => none
        | some dep =>
          match dep.time with
          | none => none
          | some t =>
            if t < now - 60 then none
            else some
              { line := lineName ((tu.trip.bind TripDescriptor.routeId).getD "")
                  config.useDestination
                minutes := jsRoundDiv60 (t - now)
                departureTs := t
                platform := PLATFORM_NAMES targetStopId }

/-- The entity loop of lines 180-245: skip entities without a trip update
or without stop-time-updates, deduplicate by truthy trip ID, run the
per-trip pipeline, and mark the trip ID seen only on acceptance. -/
def resolveLoop (config : ModeConfig) (now : Int) :
    List Entity → List String → List Departure
  | [], _ => []
  | e :: rest, seen =>
    match e.tripUpdate with
    | none => resolveLoop config now rest seen
    | some tu =>
      if (tu.stopTimeUpdate.getD []).isEmpty then resolveLoop config now rest seen
      else if isDup seen (tripIdOf tu) then resolveLoop config now rest seen
      else
        match evalTrip config now tu with
        | none => resolveLoop config now rest seen
        | some d => d :: resolveLoop config now rest (markSeen (tripIdOf tu) seen)

/-- Line 247 comparator `(a, b) => a.departureTs - b.departureTs` as the
Boolean order used by the stable sort. -/
def depLE (a b : Departure) : Bool :=
  a.departureTs ≤ b.departureTs

/-- `getDepartures(feed, mode)` (lines 172-249), with the resolution
instant `now` (the code's `Date.now() / 1000`) made explicit. -/
def getDepartures (feed : Feed) (mode : String) (now : Int) : List Departure :=
  match MODES mode with
  | none => []
  | some config => ((resolveLoop config now feed.entity []).mergeSort depLE).take 5

/-! ## HTTP handler outcome (`app.get('/api/departures')`, lines 259-272) -/

inductive ApiResponse where
  | ok (departures : List Departure) (fetchedAt : Int)
  | clientError (message : String)
  | serverError (message : String)
deriving Repr, DecidableEq

/-- The handler of lines 259-272 over a completed fetch outcome:
`req.query.mode || 'albion'`, the 400 check against `MODES`, then either
the resolver result or the 502 error. -/
def handleDepartures (queryMode : Option String) (fetchOutcome : Except String Feed)
    (now : Int) (fetchedAt : Int) : ApiResponse :=
  let mode :=
    match queryMode with
    | some s => if s = "" then "albion" else s
    | none => "albion"
  if (MODES mode).isNone then ApiResponse.clientError ("Unknown mode: " ++ mode)
  else
    match fetchOutcome with
    | Except.error _ => ApiResponse.serverError "Could not fetch live data"
    | Except.ok feed => ApiResponse.ok (getDepartures feed mode now) fetchedAt

/-! ## Feed cache (`fetchGTFSRT`, lines 125-155)

The Node event loop runs the synchronous prefix of `fetchGTFSRT` (the
freshness check, the inflight check, and the assignment of a new inflight
promise) atomically, and runs each completion handler (`then` at line 147 /
`catch` at lines 150-153) atomically later.  The model below makes each of
these one atomic step on the cache state; a pending promise is identified
by a `Nat`. -/

structure CacheState where
  data : Option Feed
  timestamp : Int
  inflight : Option Nat
deriving Repr, DecidableEq

def CACHE_TTL_MS : Int := 15000

/-- What one `fetchGTFSRT()` call returns, as seen by its caller. -/
inductive GetOutcome where
  | cachedData (feed : Feed)
  | joined (id : Nat)
  | started (id : Nat)
deriving Repr, DecidableEq

/-- The stale path of lines 139-154: join the pending fetch if one exists,
otherwise record and start a new one with identity `nextId`. -/
def cacheGetStale (st : CacheState) (nextId : Nat) : CacheState × GetOutcome :=
  match st.inflight with
  | some id => (st, GetOutcome.joined id)
  | none => ({ st with inflight := some nextId }, GetOutcome.started nextId)

/-- The synchronous prefix of `fetchGTFSRT()` (lines 134-154): serve the
cached snapshot while fresh, else the stale path. -/
def cacheGet (st : CacheState) (now : Int) (nextId : Nat) : CacheState × GetOutcome :=
  match st.data with
  | some feed =>
    if now - st.timestamp < CACHE_TTL_MS then (st, GetOutcome.cachedData feed)
    else cacheGetStale st nextId
  | none => cacheGetStale st nextId

/-- The success handler (line 147): `cache = { data: feed, timestamp:
Date.now(), inflight: null }` — a wholesale replacement. -/
def fetchSuccess (feed : Feed) (completedAt : Int) : CacheState :=
  { data := some feed, timestamp := completedAt, inflight := none }

/-- The failure handler (lines 150-153): `cache.inflight = null` only. -/
def fetchFailure (st : CacheState) : CacheState :=
  { st with inflight := none }

/-- The condition under which a call does NOT get served from cache
(negation of line 136's `cache.data && now - cache.timestamp < TTL`). -/
def staleAt (st : CacheState) (now : Int) : Prop :=
  st.data = none ∨ CACHE_TTL_MS ≤ now - st.timestamp

instance (st : CacheState) (now : Int) : Decidable (staleAt st now) := by
  unfold staleAt; infer_instance

/-- Run a burst of `fetchGTFSRT()` calls back to back on the event loop
(no completion handler runs in between); fresh promise identities are
drawn from `nextId` upward. -/
def runGets (st : CacheState) (nextId : Nat) : List Int → CacheState × List GetOutcome
  | [] => (st, [])
  | now :: rest =>
    let step := cacheGet st now nextId
    let nextId1 :=
      match step.2 with
      | GetOutcome.started _ => nextId + 1
      | _ => nextId
    let tail := runGets step.1 nextId1 rest
    (tail.1, step.2 :: tail.2)

/-- The value a caller ultimately receives, given how each pending fetch
identity resolves (the promise either fulfills with a feed or rejects). -/
def receivedValue (resolution : Nat → Except String Feed) : GetOutcome → Except String Feed
  | GetOutcome.cachedData f => Except.ok f
  | GetOutcome.joined id => resolution id
  | GetOutcome.started id => resolution id

/-- Number of upstream fetches a burst of calls issued. -/
def countStarted (outs : List GetOutcome) : Nat :=
  outs.countP (fun o =>
    match o with
    | GetOutcome.started _ => true
    | _ => false)

/-! ## Provenance-annotated resolver

`resolveLoopAnn` is `resolveLoop` with each emitted departure paired with
the truthy trip ID of the trip update that produced it (`none` when the
trip had no / an empty trip ID).  `resolveLoopAnn_map_snd` below shows it
is the same computation. -/

def resolveLoopAnn (config : ModeConfig) (now : Int) :
    List Entity → List String → List (Option String × Departure)
  | [], _ => []
  | e :: rest, seen =>
    match e.tripUpdate with
    | none => resolveLoopAnn config now rest seen
    | some tu =>
      if (tu.stopTimeUpdate.getD []).isEmpty then resolveLoopAnn config now rest seen
      else if isDup seen (tripIdOf tu) then resolveLoopAnn config now rest seen
      else
        match evalTrip config now tu with
        | none => resolveLoopAnn config now rest seen
        | some d =>
          (truthyId (tripIdOf tu), d) ::
            resolveLoopAnn config now rest (markSeen (tripIdOf tu) seen)

/-- Modelled from the spec: the line-name resolution algorithm as worded
in §4.2 (steps 1-5), used to check `lineName` against the specification. -/
def specLineName (routeId : String) (useDestination : Bool) : String :=
  if routeId = "" then "Train"
  else
    let code := routeCode routeId
    match (if useDestination ∧ 4 ≤ code.length then LINE_NAMES (jsSlice code 2 4) else none) with
    | some dest => dest
    | none =>
      match LINE_NAMES (jsSlice code 0 2) with
      | some orig => orig
      | none => routeId

/-! ## Supporting lemmas -/

/-- Unfolding equation for `resolveLoop` on a cons cell. -/
theorem resolveLoop_cons (config : ModeConfig) (now : Int) (e : Entity)
    (rest : List Entity) (seen : List String) :
    resolveLoop config now (e :: rest) seen =
      match e.tripUpdate with
      | none => resolveLoop config now rest seen
      | some tu =>
        if (tu.stopTimeUpdate.getD []).isEmpty then resolveLoop config now rest seen
        else if isDup seen (tripIdOf tu) then resolveLoop config now rest seen
        else
          match evalTrip config now tu with
          | none => resolveLoop config now rest seen
          | some d => d :: resolveLoop config now rest (markSeen (tripIdOf tu) seen) :=
  rfl

/-- Erasing the provenance annotation recovers the source loop. -/
theorem resolveLoopAnn_map_snd (config : ModeConfig) (now : Int) :
    ∀ (es : List Entity) (seen : List String),
      (resolveLoopAnn config now es seen).map Prod.snd = resolveLoop config now es seen
  | [], _ => rfl
  | e :: rest, seen => by
    unfold resolveLoopAnn resolveLoop
    cases e.tripUpdate with
    | none => exact resolveLoopAnn_map_snd config now rest seen
    | some tu =>
      dsimp only
      split
      · exact resolveLoopAnn_map_snd config now rest seen
      · split
        · exact resolveLoopAnn_map_snd config now rest seen
        · cases evalTrip config now tu with
          | none => exact resolveLoopAnn_map_snd config now rest seen
          | some d =>
            dsimp only [List.map_cons]
            rw [resolveLoopAnn_map_snd config now rest]

/-! ## Concrete test vectors used by the witnesses -/

/-- The `roma-milton` mode configuration (value of `MODES['roma-milton']`). -/
def miltonCfg : ModeConfig :=
  { stopIds := ["600029"], directionId := none,
    requiredStopIds := some ["600279", "600280"], useDestination := true }

/-- The `albion` mode configuration (value of `MODES['albion']`). -/
def albionCfg : ModeConfig :=
  { stopIds := ["600365", "600366", "600368"], directionId := some 0,
    requiredStopIds := none, useDestination := false }

/-- A stop-time-update at Milton with no time data. -/
def stuMilton : StopTimeUpdate :=
  { stopId := "600279", stopTimeProperties := none, departure := none, arrival := none }

/-- A stop-time-update at Roma Street platform 8 departing at epoch 100. -/
def stuRoma : StopTimeUpdate :=
  { stopId := "600029", stopTimeProperties := none,
    departure := some { time := some 100 }, arrival := none }

/-- A trip that calls at Milton BEFORE Roma Street and never after it. -/
def tuMiltonFirst : TripUpdate :=
  { trip := none, stopTimeUpdate := some [stuMilton, stuRoma] }

/-- An inbound Albion trip departing platform 1 at epoch 1000. -/
def tuAlbion : TripUpdate :=
  { trip := some { tripId := some "t1", routeId := some "RPSP-4484", directionId := some 0 },
    stopTimeUpdate := some
      [{ stopId := "600365", stopTimeProperties := none,
         departure := some { time := some 1000 }, arrival := none }] }

/-- A one-entity feed holding `tuAlbion`. -/
def feedAlbion : Feed := { entity := [{ tripUpdate := some tuAlbion }] }

/-- The departure `tuAlbion` resolves to at `now = 900` in albion mode. -/
def depAlbion : Departure :=
  { line := "Redcliffe", minutes := 2, departureTs := 1000, platform := some "1" }

/-- A stop-time-update scheduled at stop "599999" but reassigned to Roma
Street platform 8 (stop "600029"), departing at epoch 100. -/
def stuAssigned : StopTimeUpdate :=
  { stopId := "599999",
    stopTimeProperties := some { assignedStopId := some "600029" },
    departure := some { time := some 100 }, arrival := none }

/-- A trip matched via the reassigned stop, with Milton downstream. -/
def tuAssigned : TripUpdate :=
  { trip := none, stopTimeUpdate := some [stuAssigned, stuMilton] }

/-! ## Claim theorems -/

/-- C5: the line-name resolution satisfies the spec's algorithm: an
absent/empty route identifier yields "Train"; otherwise the identifier is
upper-cased and split at the first hyphen to obtain the route code, the
destination half `[2,4)` is tried first when `useDestination` is set and
the code has at least 4 characters, else the origin half `[0,2)`, else
the raw identifier is returned unchanged; in particular
`lineName "RPSP-4484" true = "Springfield"`,
`lineName "RPSP-4484" false = "Redcliffe"`, and
`lineName "ZZZZ-1" true = "ZZZZ-1"`. -/
theorem lineName_matches_spec :
    (∀ b, lineName "" b = "Train") ∧
    (∀ r b, lineName r b = specLineName r b) ∧
    lineName "RPSP-4484" true = "Springfield" ∧
    lineName "RPSP-4484" false = "Redcliffe" ∧
    lineName "ZZZZ-1" true = "ZZZZ-1" := by
  refine ⟨fun b => rfl, fun r b => ?_, by decide, by decide, by decide⟩
  unfold lineName specLineName
  by_cases hr : r = ""
  · simp [hr]
  · simp only [hr, if_false]
    by_cases h : b = true ∧ 4 ≤ (routeCode r).length
    · simp only [ge_iff_le, h, if_pos, and_self]
      cases h2 : LINE_NAMES (jsSlice (routeCode r) 2 4) with
      | some dest => simp [h2]
      | none =>
        cases h3 : LINE_NAMES (jsSlice (routeCode r) 0 2) with
        | some orig => simp [h2, h3]
        | none => simp [h2, h3]
    · simp only [ge_iff_le, h, if_neg, if_false]
      cases h3 : LINE_NAMES (jsSlice (routeCode r) 0 2) with
      | some orig => simp [h3]
      | none => simp [h3]

/-- C9: resolving an unknown mode name does not crash — the resolver
returns `[]` — and at the request handler the outcome is an explicit
client error, distinguishable by construction from any successful
response (in particular from a success with zero departures). -/
theorem unknownMode_distinguishable (m : String) (feed : Feed) (now fetchedAt : Int)
    (hm : MODES m = none) (hne : m ≠ "") :
    handleDepartures (some m) (Except.ok feed) now fetchedAt =
      ApiResponse.clientError ("Unknown mode: " ++ m) ∧
    (∀ ds fa, ApiResponse.clientError ("Unknown mode: " ++ m) ≠ ApiResponse.ok ds fa) ∧
    getDepartures feed m now = [] := by
  refine ⟨?_, ?_, ?_⟩
  · unfold handleDepartures
    simp [hne, hm]
  · intro ds fa hcontra
    cases hcontra
  · unfold getDepartures
    rw [hm]

/-- Witness for C9 at the concrete unknown mode `"zzz"`. -/
theorem unknownMode_distinguishable_witness :
    handleDepartures (some "zzz") (Except.ok { entity := [] }) 0 0 =
      ApiResponse.clientError ("Unknown mode: " ++ "zzz") ∧
    getDepartures { entity := [] } "zzz" 0 = [] :=
  ⟨(unknownMode_distinguishable "zzz" { entity := [] } 0 0 (by decide) (by decide)).1,
   (unknownMode_distinguishable "zzz" { entity := [] } 0 0 (by decide) (by decide)).2.2⟩

/-- C10: an entity without a trip update, or whose stop-time-update list
is absent or empty, is silently skipped: it contributes no output entry,
changes nothing about the rest of the resolution, and raises no error
(the resolver is a total function). -/
theorem degenerate_entity_skipped (config : ModeConfig) (now : Int) (e : Entity)
    (rest : List Entity) (seen : List String)
    (h : e.tripUpdate = none ∨
      ∃ tu, e.tripUpdate = some tu ∧
        (tu.stopTimeUpdate = none ∨ tu.stopTimeUpdate = some [])) :
    resolveLoop config now (e :: rest) seen = resolveLoop config now rest seen ∧
    ∀ mode, getDepartures { entity := e :: rest } mode now =
      getDepartures { entity := rest } mode now := by
  have hloop : ∀ cfg : ModeConfig, ∀ sn : List String,
      resolveLoop cfg now (e :: rest) sn = resolveLoop cfg now rest sn := by
    intro cfg sn
    rw [resolveLoop_cons]
    rcases h with h | ⟨tu, htu, h2⟩
    · rw [h]
    · rw [htu]
      rcases h2 with h2 | h2 <;> simp [h2]
  refine ⟨hloop config seen, fun mode => ?_⟩
  unfold getDepartures
  cases hmode : MODES mode with
  | none => rfl
  | some cfg =>
    dsimp only
    rw [hloop cfg []]

/-- Witness for C10: an entity with no trip update, and the empty-list
case, at a concrete feed. -/
theorem degenerate_entity_skipped_witness :
    resolveLoop
        { stopIds := ["600365", "600366", "600368"], directionId := some 0,
          requiredStopIds := none, useDestination := false }
        900 ({ tripUpdate := none } :: []) [] =
      resolveLoop
        { stopIds := ["600365", "600366", "600368"], directionId := some 0,
          requiredStopIds := none, useDestination := false }
        900 [] [] ∧
    ∀ mode, getDepartures { entity := { tripUpdate := none } :: [] } mode 900 =
      getDepartures { entity := [] } mode 900 :=
  degenerate_entity_skipped
    { stopIds := ["600365", "600366", "600368"], directionId := some 0,
      requiredStopIds := none, useDestination := false }
    900 { tripUpdate := none } [] [] (Or.inl rfl)

/-- When every arrival is stale and a fetch with identity `id` is pending,
every call joins that same fetch and the state never changes. -/
theorem runGets_all_joined (id : Nat) :
    ∀ (nows : List Int) (st : CacheState) (k : Nat),
      st.inflight = some id → (∀ t ∈ nows, staleAt st t) →
      runGets st k nows = (st, nows.map (fun _ => GetOutcome.joined id))
  | [], st, k, _, _ => rfl
  | n :: rest, st, k, hin, hstale => by
    have hstep : cacheGet st n k = (st, GetOutcome.joined id) := by
      have hs : staleAt st n := hstale n (List.mem_cons_self n rest)
      unfold cacheGet cacheGetStale
      rcases hs with h | h
      · rw [h, hin]
      · cases hd : st.data with
        | none => rw [hin]
        | some f =>
          dsimp only
          rw [if_neg (Int.not_lt.mpr h), hin]
    unfold runGets
    rw [hstep]
    dsimp only
    rw [runGets_all_joined id rest st k hin
      (fun t ht => hstale t (List.mem_cons_of_mem n ht))]
    simp

/-- C2: a burst of `fetchGTFSRT()` calls that all arrive while the cached
snapshot is stale or absent issues exactly one upstream fetch: the first
call starts it and every later call joins the same pending fetch, so that
under any resolution of the pending fetches all callers receive the same
snapshot value or the same failure. -/
theorem single_upstream_fetch (st : CacheState) (i : Nat) (nows : List Int)
    (hin : st.inflight = none) (hstale : ∀ t ∈ nows, staleAt st t)
    (hne : nows ≠ []) :
    (runGets st i nows).2 =
      GetOutcome.started i :: nows.tail.map (fun _ => GetOutcome.joined i) ∧
    countStarted (runGets st i nows).2 = 1 ∧
    ∀ resolution : Nat → Except String Feed,
      ∀ o ∈ (runGets st i nows).2, receivedValue resolution o = resolution i := by
  obtain ⟨n, rest, rfl⟩ : ∃ n rest, nows = n :: rest := by
    cases nows with
    | nil => exact absurd rfl hne
    | cons n rest => exact ⟨n, rest, rfl⟩
  have hstep : cacheGet st n i = ({ st with inflight := some i }, GetOutcome.started i) := by
    have hs : staleAt st n := hstale n (List.mem_cons_self n rest)
    unfold cacheGet cacheGetStale
    rcases hs with h | h
    · rw [h, hin]
    · cases hd : st.data with
      | none => rw [hin]
      | some f =>
        dsimp only
        rw [if_neg (Int.not_lt.mpr h), hin]
  have hrest : runGets { st with inflight := some i } (i + 1) rest =
      ({ st with inflight := some i }, rest.map (fun _ => GetOutcome.joined i)) := by
    apply runGets_all_joined i rest { st with inflight := some i } (i + 1) rfl
    intro t ht
    have := hstale t (List.mem_cons_of_mem n ht)
    rcases this with h | h
    · exact Or.inl h
    · exact Or.inr h
  have houts : (runGets st i (n :: rest)).2 =
      GetOutcome.started i :: rest.map (fun _ => GetOutcome.joined i) := by
    unfold runGets
    rw [hstep]
    dsimp only
    rw [hrest]
  refine ⟨houts, ?_, ?_⟩
  · rw [houts]
    unfold countStarted
    rw [List.countP_cons]
    have hz : ∀ l : List Int,
        (l.map (fun _ => GetOutcome.joined i)).countP (fun o =>
          match o with
          | GetOutcome.started _ => true
          | _ => false) = 0 := by
      intro l
      induction l with
      | nil => rfl
      | cons x xs ih => simp [List.countP_cons, ih]
    rw [hz rest]
    simp
  · intro resolution o ho
    rw [houts] at ho
    rcases List.mem_cons.mp ho with rfl | ho
    · rfl
    · obtain ⟨t, _, rfl⟩ := List.mem_map.mp ho
      rfl

/-- Witness for C2: a cold cache (no data, nothing pending) and three
concurrent calls — one fetch is started, the other two join it. -/
theorem single_upstream_fetch_witness :
    (runGets { data := none, timestamp := 0, inflight := none } 0 [100, 100, 200]).2 =
      GetOutcome.started 0 :: [100, 200].map (fun _ => GetOutcome.joined 0) ∧
    countStarted
      (runGets { data := none, timestamp := 0, inflight := none } 0 [100, 100, 200]).2 = 1 ∧
    ∀ resolution : Nat → Except String Feed,
      ∀ o ∈ (runGets { data := none, timestamp := 0, inflight := none } 0 [100, 100, 200]).2,
        receivedValue resolution o = resolution 0 :=
  single_upstream_fetch { data := none, timestamp := 0, inflight := none } 0 [100, 100, 200]
    rfl (by decide) (by decide)

/-- C8: the failure handler clears the pending marker while leaving the
cached snapshot and its timestamp untouched, and a subsequent call at a
stale instant starts a new fetch (nothing replays the failure). -/
theorem failure_clears_pending_only (st : CacheState) (now2 : Int) (i : Nat)
    (hstale : staleAt st now2) :
    (fetchFailure st).data = st.data ∧
    (fetchFailure st).timestamp = st.timestamp ∧
    (fetchFailure st).inflight = none ∧
    cacheGet (fetchFailure st) now2 i =
      ({ st with inflight := some i }, GetOutcome.started i) := by
  refine ⟨rfl, rfl, rfl, ?_⟩
  unfold fetchFailure cacheGet cacheGetStale
  dsimp only
  rcases hstale with h | h
  · rw [h]
  · cases hd : st.data with
    | none => rfl
    | some f =>
      dsimp only
      rw [if_neg (Int.not_lt.mpr h)]

/-- Witness for C8: a cache holding stale data with a pending fetch whose
failure handler has run; the next call starts fetch identity 3 and the
stale data survives. -/
theorem failure_clears_pending_only_witness :
    (fetchFailure { data := some { entity := [] }, timestamp := 0, inflight := some 7 }).data =
      (({ data := some { entity := [] }, timestamp := 0, inflight := some 7 } : CacheState)).data ∧
    (fetchFailure { data := some { entity := [] }, timestamp := 0, inflight := some 7 }).timestamp =
      (({ data := some { entity := [] }, timestamp := 0, inflight := some 7 } : CacheState)).timestamp ∧
    (fetchFailure { data := some { entity := [] }, timestamp := 0, inflight := some 7 }).inflight =
      none ∧
    cacheGet (fetchFailure { data := some { entity := [] }, timestamp := 0, inflight := some 7 })
        20000 3 =
      ({ data := some { entity := [] }, timestamp := 0, inflight := some 3 },
        GetOutcome.started 3) :=
  failure_clears_pending_only
    { data := some { entity := [] }, timestamp := 0, inflight := some 7 } 20000 3 (by decide)

/-- `hasDownstream` holds exactly when some entry strictly after the
matched index has its raw `stopId` in the required set. -/
theorem hasDownstream_iff (req : List String) (stus : List StopTimeUpdate) (idx : Nat) :
    hasDownstream req stus idx = true ↔
      ∃ j, idx < j ∧ ∃ hj : j < stus.length, (stus.get ⟨j, hj⟩).stopId ∈ req := by
  unfold hasDownstream
  rw [List.any_eq_true]
  constructor
  · rintro ⟨s, hs, hmem⟩
    obtain ⟨k, hk, hgetk⟩ := List.mem_iff_getElem.mp hs
    have hlen : idx + 1 + k < stus.length := by
      have := List.length_drop (idx + 1) stus
      omega
    refine ⟨idx + 1 + k, by omega, hlen, ?_⟩
    have hval : (stus.drop (idx + 1))[k] = stus.get ⟨idx + 1 + k, hlen⟩ := by
      simp
    rw [hval] at hgetk
    rw [hgetk]
    exact List.elem_iff.mp hmem
  · rintro ⟨j, hlt, hj, hmem⟩
    have hk : j - (idx + 1) < (stus.drop (idx + 1)).length := by
      rw [List.length_drop]
      omega
    refine ⟨(stus.drop (idx + 1)).get ⟨j - (idx + 1), hk⟩, List.get_mem _ _ _, ?_⟩
    have hval : (stus.drop (idx + 1)).get ⟨j - (idx + 1), hk⟩ = stus.get ⟨j, hj⟩ := by
      have : idx + 1 + (j - (idx + 1)) = j := by omega
      simp [this]
    rw [hval]
    exact List.elem_iff.mpr hmem

/-- Everything that must have held when the per-trip pipeline accepted a
trip: no direction mismatch, a matched entry, a passed downstream
requirement, a usable time within the grace window, and the exact shape
of the emitted record. -/
theorem evalTrip_some_elim (config : ModeConfig) (now : Int) (tu : TripUpdate) (d : Departure)
    (h : evalTrip config now tu = some d) :
    dirMismatch config tu = false ∧
    ∃ target eff idx,
      findTarget config (tu.stopTimeUpdate.getD []) 0 = some (target, eff, idx) ∧
      requiredFails config (tu.stopTimeUpdate.getD []) idx = false ∧
      ∃ ev t, depEvent target = some ev ∧ ev.time = some t ∧ now - 60 ≤ t ∧
        d = { line := lineName ((tu.trip.bind TripDescriptor.routeId).getD "")
                config.useDestination
              minutes := jsRoundDiv60 (t - now)
              departureTs := t
              platform := PLATFORM_NAMES eff } := by
  unfold evalTrip at h
  dsimp only at h
  split at h
  · cases h
  next hdir =>
    refine ⟨Bool.of_not_eq_true hdir, ?_⟩
    split at h
    · cases h
    next target eff idx hft =>
      refine ⟨target, eff, idx, hft, ?_⟩
      split at h
      · cases h
      next hreq =>
        refine ⟨Bool.of_not_eq_true hreq, ?_⟩
        split at h
        · cases h
        next ev hev =>
          split at h
          · cases h
          next t ht =>
            split at h
            · cases h
            next htime =>
              exact ⟨ev, t, hev, ht, by omega, (Option.some.injEq _ _).mp h.symm⟩

/-- C1: under a mode with `requiredStopIds`, a trip is accepted only if
some stop-time-update at an index strictly greater than the matched index
has its raw `stopId` in the required set; a trip all of whose
required-stop occurrences lie at or before the matched position is
excluded. -/
theorem required_downstream_gate (config : ModeConfig) (req : List String)
    (now : Int) (tu : TripUpdate) (hreq : config.requiredStopIds = some req) :
    (∀ d, evalTrip config now tu = some d →
      ∃ target eff idx,
        findTarget config (tu.stopTimeUpdate.getD []) 0 = some (target, eff, idx) ∧
        ∃ j, idx < j ∧ ∃ hj : j < (tu.stopTimeUpdate.getD []).length,
          ((tu.stopTimeUpdate.getD []).get ⟨j, hj⟩).stopId ∈ req) ∧
    (∀ target eff idx,
      findTarget config (tu.stopTimeUpdate.getD []) 0 = some (target, eff, idx) →
      (∀ j, idx < j → ∀ hj : j < (tu.stopTimeUpdate.getD []).length,
        ((tu.stopTimeUpdate.getD []).get ⟨j, hj⟩).stopId ∉ req) →
      evalTrip config now tu = none) := by
  constructor
  · intro d hd
    obtain ⟨-, target, eff, idx, hft, hrf, -⟩ := evalTrip_some_elim config now tu d hd
    refine ⟨target, eff, idx, hft, ?_⟩
    unfold requiredFails at hrf
    rw [hreq] at hrf
    dsimp only at hrf
    have hds : hasDownstream req (tu.stopTimeUpdate.getD []) idx = true := by
      cases hx : hasDownstream req (tu.stopTimeUpdate.getD []) idx with
      | true => rfl
      | false =>
        rw [hx] at hrf
        cases hrf
    exact (hasDownstream_iff req _ idx).mp hds
  · intro target eff idx hft hnone
    have hds : hasDownstream req (tu.stopTimeUpdate.getD []) idx = false := by
      cases hx : hasDownstream req (tu.stopTimeUpdate.getD []) idx with
      | false => rfl
      | true =>
        obtain ⟨j, hlt, hj, hmem⟩ := (hasDownstream_iff req _ idx).mp hx
        exact absurd hmem (hnone j hlt hj)
    have hrf : requiredFails config (tu.stopTimeUpdate.getD []) idx = true := by
      unfold requiredFails
      rw [hreq]
      dsimp only
      rw [hds]
      rfl
    unfold evalTrip
    dsimp only
    split
    · rfl
    rw [hft]
    dsimp only
    rw [hrf]
    rfl

/-- Witness for C1 at a concrete roma-milton trip: Milton appears only
before the matched Roma Street entry, so the trip is excluded (second
conjunct), and the acceptance conjunct holds on it as well. -/
theorem required_downstream_gate_witness :
    (∀ d, evalTrip miltonCfg 0 tuMiltonFirst = some d →
      ∃ target eff idx,
        findTarget miltonCfg (tuMiltonFirst.stopTimeUpdate.getD []) 0 =
          some (target, eff, idx) ∧
        ∃ j, idx < j ∧ ∃ hj : j < (tuMiltonFirst.stopTimeUpdate.getD []).length,
          ((tuMiltonFirst.stopTimeUpdate.getD []).get ⟨j, hj⟩).stopId ∈
            ["600279", "600280"]) ∧
    evalTrip miltonCfg 0 tuMiltonFirst = none := by
  have hmain := required_downstream_gate miltonCfg ["600279", "600280"] 0 tuMiltonFirst rfl
  refine ⟨hmain.1, ?_⟩
  apply hmain.2 stuRoma "600029" 1 (by decide)
  intro j hlt hj
  have hj2 : j < 2 := by
    simpa [tuMiltonFirst] using hj
  omega

/-- A trip the per-trip pipeline rejects leaves the loop untouched:
nothing is emitted, nothing is marked seen, and processing continues with
the remaining entities. -/
theorem resolveLoop_skip (config : ModeConfig) (now : Int) (tu : TripUpdate)
    (rest : List Entity) (seen : List String)
    (h : evalTrip config now tu = none) :
    resolveLoop config now ({ tripUpdate := some tu } :: rest) seen =
      resolveLoop config now rest seen := by
  rw [resolveLoop_cons]
  dsimp only
  by_cases h1 : (tu.stopTimeUpdate.getD []).isEmpty = true
  · rw [if_pos h1]
  · rw [if_neg h1]
    by_cases h2 : isDup seen (tripIdOf tu) = true
    · rw [if_pos h2]
    · rw [if_neg h2, h]

/-- Every departure emitted by the loop lies within the grace window. -/
theorem mem_resolveLoop_time (config : ModeConfig) (now : Int) :
    ∀ (es : List Entity) (seen : List String) (d : Departure),
      d ∈ resolveLoop config now es seen → now - 60 ≤ d.departureTs
  | [], _, d, h => absurd h (List.not_mem_nil d)
  | e :: rest, seen, d, h => by
    rw [resolveLoop_cons] at h
    cases he : e.tripUpdate with
    | none =>
      rw [he] at h
      exact mem_resolveLoop_time config now rest seen d h
    | some tu =>
      rw [he] at h
      dsimp only at h
      by_cases h1 : (tu.stopTimeUpdate.getD []).isEmpty = true
      · rw [if_pos h1] at h
        exact mem_resolveLoop_time config now rest seen d h
      · rw [if_neg h1] at h
        by_cases h2 : isDup seen (tripIdOf tu) = true
        · rw [if_pos h2] at h
          exact mem_resolveLoop_time config now rest seen d h
        · rw [if_neg h2] at h
          cases hev : evalTrip config now tu with
          | none =>
            rw [hev] at h
            exact mem_resolveLoop_time config now rest seen d h
          | some d2 =>
            rw [hev] at h
            rcases List.mem_cons.mp h with rfl | h3
            · obtain ⟨-, target, eff, idx, -, -, ev, t, -, -, htime, hd2⟩ :=
                evalTrip_some_elim config now tu d hev
              rw [hd2]
              exact htime
            · exact mem_resolveLoop_time config now rest (markSeen (tripIdOf tu) seen) d h3

/-- C7: every resolved entry departs no earlier than the resolution
instant minus the 60-second grace window, and a trip whose extracted time
converts to a non-finite number or lies more than 60 seconds in the past
is skipped without aborting the processing of the remaining trips. -/
theorem grace_window_bound (feed : Feed) (mode : String) (now : Int) :
    (∀ d ∈ getDepartures feed mode now, now - 60 ≤ d.departureTs) ∧
    (∀ (config : ModeConfig) (tu : TripUpdate) (target : StopTimeUpdate)
        (eff : String) (idx : Nat) (ev : TimeEvent),
      findTarget config (tu.stopTimeUpdate.getD []) 0 = some (target, eff, idx) →
      depEvent target = some ev →
      (ev.time = none ∨ ∃ t, ev.time = some t ∧ t < now - 60) →
      evalTrip config now tu = none ∧
      ∀ (rest : List Entity) (seen : List String),
        resolveLoop config now ({ tripUpdate := some tu } :: rest) seen =
          resolveLoop config now rest seen) := by
  constructor
  · intro d hd
    unfold getDepartures at hd
    cases hmode : MODES mode with
    | none =>
      rw [hmode] at hd
      cases hd
    | some config =>
      rw [hmode] at hd
      dsimp only at hd
      have hd2 : d ∈ (resolveLoop config now feed.entity []).mergeSort depLE :=
        List.mem_of_mem_take hd
      rw [List.mem_mergeSort] at hd2
      exact mem_resolveLoop_time config now feed.entity [] d hd2
  · intro config tu target eff idx ev hft hev htime
    have hnone : evalTrip config now tu = none := by
      unfold evalTrip
      dsimp only
      split
      · rfl
      rw [hft]
      dsimp only
      split
      · rfl
      rw [hev]
      dsimp only
      rcases htime with ht | ⟨t, ht, hlt⟩
      · rw [ht]
      · rw [ht]
        dsimp only
        rw [if_pos hlt]
    exact ⟨hnone, fun rest seen => resolveLoop_skip config now tu rest seen hnone⟩

/-- Witness for C7: the one-trip Albion feed at `now = 900`, and a trip
whose only time is 200 seconds in the past. -/
theorem grace_window_bound_witness :
    (900 - 60 ≤ depAlbion.departureTs) ∧
    evalTrip albionCfg 900
      { trip := none,
        stopTimeUpdate := some
          [{ stopId := "600365", stopTimeProperties := none,
             departure := some { time := some 700 }, arrival := none }] } = none := by
  constructor
  · have hres : resolveLoop albionCfg 900 feedAlbion.entity [] = [depAlbion] := by decide
    have hmode : MODES "albion" = some albionCfg := by decide
    have hget : getDepartures feedAlbion "albion" 900 = [depAlbion] := by
      unfold getDepartures
      rw [hmode]
      dsimp only
      rw [hres]
      simp
    refine (grace_window_bound feedAlbion "albion" 900).1 depAlbion ?_
    rw [hget]
    exact List.mem_singleton.mpr rfl
  · refine ((grace_window_bound feedAlbion "albion" 900).2 albionCfg
      { trip := none,
        stopTimeUpdate := some
          [{ stopId := "600365", stopTimeProperties := none,
             departure := some { time := some 700 }, arrival := none }] }
      { stopId := "600365", stopTimeProperties := none,
        departure := some { time := some 700 }, arrival := none }
      "600365" 0 { time := some 700 } (by decide) (by decide) ?_).1
    exact Or.inr ⟨700, rfl, by decide⟩

/-- C4: a matched stop-time-update carrying `assignedStopId = X` (with
`X` in the mode's stop IDs) still matches, its effective stop ID is `X`
rather than the raw `stopId`, the emitted platform label is looked up
under `X`, and the required-downstream-stop check is insensitive to
`stopTimeProperties` — it compares raw `stopId`s only. -/
theorem assigned_stop_precedence (config : ModeConfig) (stu : StopTimeUpdate) (X : String)
    (hassign : stu.stopTimeProperties = some { assignedStopId := some X }) (hX : X ≠ "") :
    effectiveStopId stu = X ∧
    (X ∈ config.stopIds → entryMatches config stu = true) ∧
    (∀ (now : Int) (tu : TripUpdate) (target : StopTimeUpdate) (idx : Nat) (d : Departure),
      findTarget config (tu.stopTimeUpdate.getD []) 0 = some (target, X, idx) →
      evalTrip config now tu = some d →
      d.platform = PLATFORM_NAMES X) ∧
    (∀ (req : List String) (stus : List StopTimeUpdate) (idx : Nat)
        (props : StopTimeUpdate → Option StopTimeProperties),
      hasDownstream req (stus.map (fun s => { s with stopTimeProperties := props s })) idx =
        hasDownstream req stus idx) := by
  have heff : effectiveStopId stu = X := by
    unfold effectiveStopId
    rw [hassign]
    dsimp only
    rw [if_neg hX]
  refine ⟨heff, ?_, ?_, ?_⟩
  · intro hmem
    unfold entryMatches
    rw [heff]
    have : config.stopIds.contains X = true := List.elem_iff.mpr hmem
    rw [this]
    simp
  · intro now tu target idx d hft hsome
    obtain ⟨-, target2, eff2, idx2, hft2, -, ev, t, -, -, -, hd⟩ :=
      evalTrip_some_elim config now tu d hsome
    rw [hft] at hft2
    obtain ⟨-, heq, -⟩ := Prod.mk.injEq _ _ _ _ ▸ (Option.some.injEq _ _).mp hft2
    rw [hd]
  · intro req stus idx props
    unfold hasDownstream
    rw [← List.map_drop]
    rw [List.any_map]
    rfl

/-- Witness for C4: the reassigned Roma Street trip — scheduled stop
"599999", assigned "600029" — matches roma-milton and gets platform 8. -/
theorem assigned_stop_precedence_witness :
    effectiveStopId stuAssigned = "600029" ∧
    entryMatches miltonCfg stuAssigned = true ∧
    ∀ d, evalTrip miltonCfg 0 tuAssigned = some d → d.platform = PLATFORM_NAMES "600029" := by
  have hmain := assigned_stop_precedence miltonCfg stuAssigned "600029" rfl (by decide)
  refine ⟨hmain.1, hmain.2.1 (by decide), ?_⟩
  intro d hd
  exact hmain.2.2.1 0 tuAssigned stuAssigned 0 d (by decide) hd

/-- `depLE` is transitive. -/
theorem depLE_trans (a b c : Departure) (h1 : depLE a b) (h2 : depLE b c) : depLE a c := by
  simp only [depLE, decide_eq_true_eq] at h1 h2 ⊢
  omega

/-- `depLE` is total. -/
theorem depLE_total (a b : Departure) : depLE a b || depLE b a := by
  simp only [depLE, Bool.or_eq_true, decide_eq_true_eq]
  omega

/-- C6: for every snapshot and mode name the resolver output is sorted
ascending by the raw departure epoch, holds at most 5 entries (the
hard-coded cap), and the sort is stable: any chain of emitted departures
that is already in order survives as a sublist of the sorted list. -/
theorem output_sorted_capped (feed : Feed) (mode : String) (now : Int) :
    (getDepartures feed mode now).Pairwise (fun a b => a.departureTs ≤ b.departureTs) ∧
    (getDepartures feed mode now).length ≤ 5 ∧
    ∀ config : ModeConfig, MODES mode = some config →
      ∀ c : List Departure, c.Pairwise (fun a b => depLE a b = true) →
        c.Sublist (resolveLoop config now feed.entity []) →
        c.Sublist ((resolveLoop config now feed.entity []).mergeSort depLE) := by
  refine ⟨?_, ?_, ?_⟩
  · unfold getDepartures
    cases hmode : MODES mode with
    | none => exact List.Pairwise.nil
    | some config =>
      dsimp only
      have hsorted : ((resolveLoop config now feed.entity []).mergeSort depLE).Pairwise
          (fun a b => depLE a b = true) :=
        List.sorted_mergeSort depLE_trans depLE_total _
      have htake := hsorted.sublist (List.take_sublist 5 _)
      exact htake.imp (fun hab => by
        simpa only [depLE, decide_eq_true_eq] using hab)
  · unfold getDepartures
    cases hmode : MODES mode with
    | none => simp
    | some config =>
      dsimp only
      simp only [List.length_take, List.length_mergeSort]
      omega
  · intro config hmode c hc hsub
    exact List.sublist_mergeSort depLE_trans depLE_total hc hsub

/-- Witness for C6 on the one-trip Albion feed. -/
theorem output_sorted_capped_witness :
    (getDepartures feedAlbion "albion" 900).Pairwise
      (fun a b => a.departureTs ≤ b.departureTs) ∧
    (getDepartures feedAlbion "albion" 900).length ≤ 5 ∧
    ([] : List Departure).Sublist
      ((resolveLoop albionCfg 900 feedAlbion.entity []).mergeSort depLE) :=
  ⟨(output_sorted_capped feedAlbion "albion" 900).1,
   (output_sorted_capped feedAlbion "albion" 900).2.1,
   (output_sorted_capped feedAlbion "albion" 900).2.2 albionCfg (by decide) []
     List.Pairwise.nil (List.nil_sublist _)⟩

/-- Unfolding equation for `resolveLoopAnn` on a cons cell. -/
theorem resolveLoopAnn_cons (config : ModeConfig) (now : Int) (e : Entity)
    (rest : List Entity) (seen : List String) :
    resolveLoopAnn config now (e :: rest) seen =
      match e.tripUpdate with
      | none => resolveLoopAnn config now rest seen
      | some tu =>
        if (tu.stopTimeUpdate.getD []).isEmpty then resolveLoopAnn config now rest seen
        else if isDup seen (tripIdOf tu) then resolveLoopAnn config now rest seen
        else
          match evalTrip config now tu with
          | none => resolveLoopAnn config now rest seen
          | some d =>
            (truthyId (tripIdOf tu), d) ::
              resolveLoopAnn config now rest (markSeen (tripIdOf tu) seen) :=
  rfl

/-- The annotated loop never emits two entries annotated with the same
trip ID, and no emitted trip ID was already in the seen-set. -/
theorem resolveLoopAnn_pairwise (config : ModeConfig) (now : Int) :
    ∀ (es : List Entity) (seen : List String),
      (resolveLoopAnn config now es seen).Pairwise
        (fun a b => ∀ s : String, a.1 = some s → b.1 ≠ some s) ∧
      ∀ p ∈ resolveLoopAnn config now es seen, ∀ s : String, p.1 = some s → s ∉ seen
  | [], seen => ⟨List.Pairwise.nil, fun p hp => absurd hp (List.not_mem_nil p)⟩
  | e :: rest, seen => by
    rw [resolveLoopAnn_cons]
    cases he : e.tripUpdate with
    | none => exact resolveLoopAnn_pairwise config now rest seen
    | some tu =>
      dsimp only
      by_cases h1 : (tu.stopTimeUpdate.getD []).isEmpty = true
      · rw [if_pos h1]
        exact resolveLoopAnn_pairwise config now rest seen
      · rw [if_neg h1]
        by_cases h2 : isDup seen (tripIdOf tu) = true
        · rw [if_pos h2]
          exact resolveLoopAnn_pairwise config now rest seen
        · rw [if_neg h2]
          cases hev : evalTrip config now tu with
          | none => exact resolveLoopAnn_pairwise config now rest seen
          | some d =>
            cases htid : truthyId (tripIdOf tu) with
            | none =>
              have hmark : markSeen (tripIdOf tu) seen = seen := by
                unfold markSeen
                rw [htid]
              rw [hmark]
              obtain ⟨hpw, hfresh⟩ := resolveLoopAnn_pairwise config now rest seen
              refine ⟨List.Pairwise.cons ?_ hpw, ?_⟩
              · intro b hb s hs
                cases hs
              · intro p hp s hs
                rcases List.mem_cons.mp hp with rfl | hp2
                · cases hs
                · exact hfresh p hp2 s hs
            | some t =>
              have hmark : markSeen (tripIdOf tu) seen = t :: seen := by
                unfold markSeen
                rw [htid]
              rw [hmark]
              obtain ⟨hpw, hfresh⟩ := resolveLoopAnn_pairwise config now rest (t :: seen)
              have htnot : ¬ t ∈ seen := by
                intro hmem
                apply h2
                unfold isDup
                rw [htid]
                exact List.elem_iff.mpr hmem
              refine ⟨List.Pairwise.cons ?_ hpw, ?_⟩
              · intro b hb s hs hbs
                have hst : s = t := by
                  injection hs with hh
                  exact hh.symm
                have := hfresh b hb s hbs
                exact this (hst ▸ List.mem_cons_self t seen)
              · intro p hp s hs
                rcases List.mem_cons.mp hp with rfl | hp2
                · have hst : s = t := by
                    injection hs with hh
                    exact hh.symm
                  exact hst ▸ htnot
                · intro hmem
                  exact hfresh p hp2 s hs (List.mem_cons_of_mem t hmem)

/-- C3: no two output entries originate from trips sharing the same
non-empty trip ID — the first accepted occurrence wins and a trip ID is
recorded only on acceptance — the resolver output is exactly the
projection of the provenance-annotated scan, and trips with an absent
(or empty, JS-falsy) trip ID are never deduplicated: they are evaluated
independently of the seen-set and never marked in it. -/
theorem dedup_by_tripId (feed : Feed) (mode : String) (now : Int) (config : ModeConfig)
    (hmode : MODES mode = some config) :
    (resolveLoopAnn config now feed.entity []).Pairwise
      (fun a b => ∀ s : String, a.1 = some s → b.1 ≠ some s) ∧
    getDepartures feed mode now =
      (((resolveLoopAnn config now feed.entity []).map Prod.snd).mergeSort depLE).take 5 ∧
    ∀ (tu : TripUpdate) (rest : List Entity) (seen : List String),
      truthyId (tripIdOf tu) = none →
      resolveLoop config now ({ tripUpdate := some tu } :: rest) seen =
        (match evalTrip config now tu with
          | none => resolveLoop config now rest seen
          | some d => d :: resolveLoop config now rest seen) := by
  refine ⟨(resolveLoopAnn_pairwise config now feed.entity []).1, ?_, ?_⟩
  · unfold getDepartures
    rw [hmode]
    dsimp only
    rw [resolveLoopAnn_map_snd]
  · intro tu rest seen htid
    rw [resolveLoop_cons]
    dsimp only
    have hdup : isDup seen (tripIdOf tu) = false := by
      unfold isDup
      rw [htid]
    have hmark : markSeen (tripIdOf tu) seen = seen := by
      unfold markSeen
      rw [htid]
    by_cases h1 : (tu.stopTimeUpdate.getD []).isEmpty = true
    · have hempty : tu.stopTimeUpdate.getD [] = [] := by
        simpa [List.isEmpty_iff] using h1
      have hev : evalTrip config now tu = none := by
        unfold evalTrip
        dsimp only
        split
        · rfl
        rw [hempty]
        rfl
      rw [if_pos h1, hev]
    · rw [if_neg h1, hdup]
      simp only [Bool.false_eq_true, if_false]
      cases hev : evalTrip config now tu with
      | none => rfl
      | some d => rw [hmark]

/-- Witness for C3: a feed holding the same Albion trip twice — the
duplicate is dropped and the output carries a single `"t1"` entry. -/
theorem dedup_by_tripId_witness :
    (resolveLoopAnn albionCfg 900
        [{ tripUpdate := some tuAlbion }, { tripUpdate := some tuAlbion }] []).Pairwise
      (fun a b => ∀ s : String, a.1 = some s → b.1 ≠ some s) ∧
    getDepartures { entity := [{ tripUpdate := some tuAlbion }, { tripUpdate := some tuAlbion }] }
        "albion" 900 =
      (((resolveLoopAnn albionCfg 900
          [{ tripUpdate := some tuAlbion }, { tripUpdate := some tuAlbion }] []).map
            Prod.snd).mergeSort depLE).take 5 ∧
    resolveLoopAnn albionCfg 900
        [{ tripUpdate := some tuAlbion }, { tripUpdate := some tuAlbion }] [] =
      [(some "t1", depAlbion)] := by
  have hmain := dedup_by_tripId
    { entity := [{ tripUpdate := some tuAlbion }, { tripUpdate := some tuAlbion }] }
    "albion" 900 albionCfg (by decide)
  exact ⟨hmain.1, hmain.2.1, by decide⟩

end AlbionRush
